import Mathlib

/-!
Verification development for the device-reconciliation core
(`src/main/razerdevicemanager.js` of razer-macos).

The JavaScript core is shallowly embedded: JS strings are modelled as lists
of UTF-16 code units (`List Nat`), JS objects as insertion-ordered
association lists, promises as `Except`-valued outcomes, and the manager's
mutable fields (`lastRefresh`, `activeRazerDevices`) as an explicit state
record threaded through the operations.
-/

set_option maxHeartbeats 1600000

namespace RazerMacos

/-! JS string primitives used by `toIntProductId`.  A JS string is a list of
UTF-16 code units.  `isJsWs` covers the JS `StrWhiteSpaceChar` set,
`jsTrim` models `String.prototype.trim`, `lowerCode`/`jsToLower` model the
ASCII part of `String.prototype.toLowerCase` (the inputs of interest are
ASCII). -/

def isJsWs (c : Nat) : Bool :=
  decide (c = 32 ∨ (9 ≤ c ∧ c ≤ 13) ∨ c = 160 ∨ c = 5760 ∨ (8192 ≤ c ∧ c ≤ 8202) ∨
    c = 8232 ∨ c = 8233 ∨ c = 8239 ∨ c = 8287 ∨ c = 12288 ∨ c = 65279)

def jsTrim (s : List Nat) : List Nat :=
  ((s.dropWhile isJsWs).reverse.dropWhile isJsWs).reverse

def lowerCode (c : Nat) : Nat := if 65 ≤ c ∧ c ≤ 90 then c + 32 else c

def jsToLower (s : List Nat) : List Nat := s.map lowerCode

/-- Value of one digit code unit under a radix, as in JS `parseInt`:
`0`-`9`, then letters (either case) up to the radix. -/
def digitVal (radix c : Nat) : Option Nat :=
  if 48 ≤ c ∧ c ≤ 57 ∧ c - 48 < radix then some (c - 48)
  else if 97 ≤ c ∧ c ≤ 122 ∧ c - 87 < radix then some (c - 87)
  else if 65 ≤ c ∧ c ≤ 90 ∧ c - 55 < radix then some (c - 55)
  else none

/-- Longest-digit-run accumulator of JS `parseInt`: consumes valid digits,
ignores the rest; yields `none` (NaN) when no digit was consumed. -/
def parseDigits (radix : Nat) : List Nat → Nat → Bool → Option Nat
  | [], acc, seen => if seen then some acc else none
  | c :: rest, acc, seen =>
    match digitVal radix c with
    | some d => parseDigits radix rest (acc * radix + d) true
    | none => if seen then some acc else none

/-- Removal of a leading `0x`/`0X`, done by JS `parseInt` when the radix is 16. -/
def strip0x (s : List Nat) : List Nat :=
  match s with
  | c0 :: c1 :: rest => if c0 = 48 ∧ (c1 = 120 ∨ c1 = 88) then rest else c0 :: c1 :: rest
  | _ => s

def parseUnsigned (radix : Nat) (s : List Nat) : Option Nat :=
  parseDigits radix (if radix = 16 then strip0x s else s) 0 false

/-- Model of JS `parseInt(s, radix)`: skip whitespace, optional sign,
optional `0x` for radix 16, then the longest run of digits; `none` is NaN. -/
def parseIntJs (radix : Nat) (s : List Nat) : Option Int :=
  let cs := s.dropWhile isJsWs
  match cs with
  | [] => none
  | c :: rest =>
    if c = 45 then (parseUnsigned radix rest).map (fun n => -(n : Int))
    else if c = 43 then (parseUnsigned radix rest).map (fun n => (n : Int))
    else (parseUnsigned radix (c :: rest)).map (fun n => (n : Int))

/-- Positional value of a digit-code list (used to state what a digit string
denotes). -/
def natValOfDigits (radix : Nat) (ds : List Nat) : Nat :=
  ds.foldl (fun a c => a * radix + (digitVal radix c).getD 0) 0

/-- JS number reaching `toIntProductId`: a finite value or NaN/Infinity. -/
inductive JsNum where
  | int (n : Int)
  | nonFinite
deriving DecidableEq

/-- Raw `productId` as reported by the native addon: a number, a string,
`null`/`undefined`, or a value of any other type. -/
inductive Pid where
  | num (v : JsNum)
  | str (s : List Nat)
  | jsNull
  | other
deriving DecidableEq

/-- Model of `s.startsWith('0x')` on a lowercased code-unit list. -/
def startsWith0x (s : List Nat) : Bool :=
  match s with
  | c0 :: c1 :: _ => c0 == 48 && c1 == 120
  | _ => false

/-- Model of `RazerDeviceManager.toIntProductId` (razerdevicemanager.js
lines 34-52).  `none` is JS `null`.  The string branch trims, lowercases,
then dispatches on a `0x` prefix exactly as the source does; `parseIntJs`
already returns `none` for NaN, which subsumes the source's
`Number.isFinite` guards. -/
def toIntProductId (pid : Pid) : Option Int :=
  match pid with
  | .jsNull => none
  | .num (.int n) => some n
  | .num .nonFinite => none
  | .str s =>
    let t := jsToLower (jsTrim s)
    if startsWith0x t then parseIntJs 16 t else parseIntJs 10 t
  | .other => none

/-! Feature model.  A JS object is modelled as an insertion-ordered
association list with unique keys; `lookupJs` is property access,
`setKey` a single property assignment (existing keys keep their position,
new keys are appended), `objectAssign` is `Object.assign(target, src)`. -/

/-- Descriptor of one device feature: its identifier and its configuration
object. -/
structure FeatureDescriptor (V : Type) where
  featureIdentifier : String
  configuration : List (String × V)
deriving DecidableEq

def lookupJs {V : Type} (obj : List (String × V)) (k : String) : Option V :=
  match obj with
  | [] => none
  | (k₀, v₀) :: rest => if k₀ = k then some v₀ else lookupJs rest k

def setKey {V : Type} (obj : List (String × V)) (k : String) (v : V) :
    List (String × V) :=
  if (lookupJs obj k).isSome then
    obj.map (fun p => if p.1 = k then (p.1, v) else p)
  else obj ++ [(k, v)]

/-- Model of `Object.assign(target, src)` restricted to own enumerable
string keys, as used on line 212 of the source. -/
def objectAssign {V : Type} (target src : List (String × V)) :
    List (String × V) :=
  src.foldl (fun acc p => setKey acc p.1 p.2) target

/-- One `featuresConfig` entry: a JS object whose first key is the feature
identifier and whose first value is the override object
(`Object.keys(featureConfig)[0]` / `Object.values(featureConfig)[0]`). -/
abbrev FeatureOverrideEntry (V : Type) := List (String × List (String × V))

/-- Mutation of the first descriptor whose identifier matches, as performed
through `features.find(...)` followed by the in-place `Object.assign` on its
`configuration` (lines 209-213). -/
def assignFirst {V : Type} (fid : String) (ov : List (String × V)) :
    List (FeatureDescriptor V) → List (FeatureDescriptor V)
  | [] => []
  | f :: fs =>
    if f.featureIdentifier = fid then
      { f with configuration := objectAssign f.configuration ov } :: fs
    else f :: assignFirst fid ov fs

/-- Model of the `featuresConfig.forEach` loop (lines 205-215). An entry with
no key at all contributes nothing (its identifier is `undefined`, which
matches no descriptor). -/
def applyFeatureOverrides {V : Type} (features : List (FeatureDescriptor V))
    (featuresConfig : List (FeatureOverrideEntry V)) :
    List (FeatureDescriptor V) :=
  featuresConfig.foldl (fun acc entry =>
    match entry with
    | [] => acc
    | (fid, ov) :: _ => assignFirst fid ov acc) features

/-- Device category, `RazerDeviceType` in the source.  The seven recognized
categories plus a representative for any unrecognized tag (the `default`
branch of the factory switch / an `indexOf` miss in the sort order). -/
inductive MainType where
  | keyboard
  | mouse
  | mouseDock
  | mouseMat
  | egpu
  | headphone
  | accessory
  | unknown
deriving DecidableEq

/-- Properties assembled for one matched device (the `razerProperties`
object of lines 103-112). `none` models JS `null`/`undefined` fields. -/
structure RazerProperties (V F : Type) where
  name : String
  productId : Int
  internalId : Int
  mainType : MainType
  image : String
  features : Option (List F)
  featuresMissing : Option (List String)
  featuresConfig : Option (List (FeatureOverrideEntry V))

/-- Constructed device instance (the `razerDeviceProperties` payload of the
class constructed on line 217). -/
structure DeviceInstance (V : Type) where
  name : String
  productId : Int
  internalId : Int
  mainType : MainType
  image : String
  features : List (FeatureDescriptor V)
deriving DecidableEq

/-- Feature-list assembly of `createRazerDeviceFrom` (lines 186-215):
defaults or explicit list, then removal of `featuresMissing`, then the
override loop.  `getDefaultFeaturesFor` and `createFeatureFrom` live in
`FeatureHelper` outside the embedded core, so they are taken as
parameters. -/
def buildFeatures {V F : Type}
    (getDefaultFeaturesFor : MainType → List (FeatureDescriptor V))
    (createFeatureFrom : F → FeatureDescriptor V)
    (p : RazerProperties V F) : List (FeatureDescriptor V) :=
  let base :=
    match p.features with
    | none => getDefaultFeaturesFor p.mainType
    | some fs => fs.map createFeatureFrom
  let filtered :=
    match p.featuresMissing with
    | none => base
    | some missing =>
      base.filter (fun feature =>
        !(missing.any (fun missingFeature =>
          missingFeature == feature.featureIdentifier)))
  match p.featuresConfig with
  | none => filtered
  | some cfgs => applyFeatureOverrides filtered cfgs

/-- Model of `createRazerDeviceFrom` (lines 148-218).  The class selected by
the switch only adds behavior, not data, so the instance is the assembled
property record. -/
def createRazerDeviceFrom {V F : Type}
    (getDefaultFeaturesFor : MainType → List (FeatureDescriptor V))
    (createFeatureFrom : F → FeatureDescriptor V)
    (p : RazerProperties V F) : DeviceInstance V :=
  { name := p.name
    productId := p.productId
    internalId := p.internalId
    mainType := p.mainType
    image := p.image
    features := buildFeatures getDefaultFeaturesFor createFeatureFrom p }

/-! Sorting (lines 125-146). -/

/-- Fixed category priority list (lines 126-134). -/
def deviceOrder : List MainType :=
  [.keyboard, .mouse, .mouseDock, .mouseMat, .egpu, .headphone, .accessory]

/-- JS `Array.prototype.indexOf`: index of the first strict-equality match,
`-1` when absent. -/
def indexOfJs (l : List MainType) (t : MainType) : Int :=
  match l.findIdx? (fun x => x == t) with
  | some i => (i : Int)
  | none => -1

def rankOf {V : Type} (d : DeviceInstance V) : Int :=
  indexOfJs deviceOrder d.mainType

/-- The comparator passed to `devices.sort` (lines 136-145). -/
def sortCompare {V : Type} (a b : DeviceInstance V) : Int :=
  if rankOf a = rankOf b then
    if a.name < b.name then -1 else if b.name < a.name then 1 else 0
  else rankOf a - rankOf b

def devLe {V : Type} (a b : DeviceInstance V) : Bool :=
  decide (sortCompare a b ≤ 0)

/-- Model of `sortDevices`: ES2019+ `Array.prototype.sort` is a stable sort
consistent with the comparator, rendered as a stable merge sort under the
comparator's induced order. -/
def sortDevices {V : Type} (devices : List (DeviceInstance V)) :
    List (DeviceInstance V) :=
  devices.mergeSort devLe

/-! Manager state and lifecycle. -/

/-- Catalog entry produced by `getAllRazerDeviceConfigurations` (lines
220-234): `productId` already parsed to an integer at load time. -/
structure ConfigDevice (V F : Type) where
  name : String
  productId : Int
  mainType : MainType
  features : Option (List F)
  featuresMissing : Option (List String)
  featuresConfig : Option (List (FeatureOverrideEntry V))
  image : String

/-- Mutable fields of the manager relevant to the embedded operations.
`activeRazerDevices = none` is the JS `null` set in the constructor and by
`closeDevices`. -/
structure ManagerState (V : Type) where
  lastRefresh : Nat
  activeRazerDevices : Option (List (DeviceInstance V))
deriving DecidableEq

/-- State established by the constructor (lines 23-26). -/
def constructorState (V : Type) : ManagerState V :=
  { lastRefresh := 0, activeRazerDevices := none }

/-- Model of `closeDevices` (lines 240-245).  The boolean records whether
the hardware layer's `closeAllDevices` was called. -/
def closeDevices {V : Type} (s : ManagerState V) : ManagerState V × Bool :=
  match s.activeRazerDevices with
  | some _ => ({ s with activeRazerDevices := none }, true)
  | none => (s, false)

/-- Exception kinds observable from the embedded operations. -/
inductive JsError where
  | typeError
deriving DecidableEq

/-- Model of `getByInternalId` (lines 236-238).  When
`activeRazerDevices` is `null`, `null.find(...)` throws a `TypeError`;
otherwise the result is the first match or `undefined` (`none`). -/
def getByInternalId {V : Type} (s : ManagerState V) (internalId : Int) :
    Except JsError (Option (DeviceInstance V)) :=
  match s.activeRazerDevices with
  | none => .error .typeError
  | some devices => .ok (devices.find? (fun d => d.internalId == internalId))

/-- One entry of the list returned by the addon's `getAllDevices`. -/
structure HwDevice where
  internalDeviceId : Int
  productId : Pid
deriving DecidableEq

/-- Warning-level diagnostics emitted during a refresh (lines 91 and
97-99). -/
inductive LogEntry where
  | invalidProductId (internalDeviceId : Int) (raw : Pid)
  | noConfigMatch (productId : Int)
deriving DecidableEq

/-- Per-device step of the refresh `map` (lines 87-116).  Result:
`.ok none` for a skipped device (the callback returned `null`),
`.ok (some d)` for a device whose `init()` resolved, `.error ()` for a
device whose `init()` rejected.  `initOk` is the oracle for the outcome of
`init()`; per the spec, `init()` resolves with the initialized instance or
rejects (the device classes live outside the embedded core).  The source's
`!Number.isFinite(foundProductId)` guard is exactly the `none` case of
`toIntProductId`, which only ever returns `null` or a finite number. -/
def processFoundDevice {V F : Type}
    (getDefaultFeaturesFor : MainType → List (FeatureDescriptor V))
    (createFeatureFrom : F → FeatureDescriptor V)
    (razerConfigDevices : List (ConfigDevice V F))
    (initOk : DeviceInstance V → Bool) (foundDevice : HwDevice) :
    Except Unit (Option (DeviceInstance V)) × List LogEntry :=
  match toIntProductId foundDevice.productId with
  | none =>
    (.ok none, [.invalidProductId foundDevice.internalDeviceId foundDevice.productId])
  | some foundProductId =>
    match razerConfigDevices.find? (fun d => d.productId == foundProductId) with
    | none => (.ok none, [.noConfigMatch foundProductId])
    | some configurationDevice =>
      let razerDevice := createRazerDeviceFrom getDefaultFeaturesFor createFeatureFrom
        { name := configurationDevice.name
          productId := foundProductId
          internalId := foundDevice.internalDeviceId
          mainType := configurationDevice.mainType
          image := configurationDevice.image
          features := configurationDevice.features
          featuresMissing := configurationDevice.featuresMissing
          featuresConfig := configurationDevice.featuresConfig }
      if initOk razerDevice then (.ok (some razerDevice), []) else (.error (), [])

/-- Model of `Promise.all`: rejects iff some member rejects, otherwise
resolves with the list of values. -/
def promiseAll {E α : Type} : List (Except E α) → Except E (List α)
  | [] => .ok []
  | r :: rs =>
    match r with
    | .error e => .error e
    | .ok a =>
      match promiseAll rs with
      | .error e => .error e
      | .ok as => .ok (a :: as)

deriving instance DecidableEq for Except

/-- Observable outcome of one `refreshRazerDevices` call: the state after
the call, whether the hardware layer was enumerated (`getAllDevices`),
whether it was torn down (`closeAllDevices`), whether the returned promise
resolved or rejected, and the warning diagnostics emitted. -/
structure RefreshResult (V : Type) where
  state : ManagerState V
  hwQueried : Bool
  hwClosed : Bool
  outcome : Except Unit Unit
  logs : List LogEntry
deriving DecidableEq

/-- Continuation of the refresh once `Promise.all` settles (lines 118-122):
a rejection propagates; otherwise the non-null entries are filtered out,
sorted and stored as the new active set. -/
def finishRefresh {V : Type} (closed : ManagerState V × Bool)
    (logs : List LogEntry)
    (res : Except Unit (List (Option (DeviceInstance V)))) : RefreshResult V :=
  match res with
  | .error e =>
    { state := closed.1, hwQueried := true, hwClosed := closed.2,
      outcome := .error e, logs := logs }
  | .ok devices =>
    { state := { closed.1 with
        activeRazerDevices := some (sortDevices (devices.filterMap id)) },
      hwQueried := true, hwClosed := closed.2, outcome := .ok (), logs := logs }

/-- Model of `refreshRazerDevices` (lines 59-123).  `now` is
`new Date().getTime()`, `getAllDevices` the addon enumeration outcome
(`.error` models a synchronous throw).  Structure mirrors the source: the
throttle check, then `lastRefresh` update, then `closeDevices`, then the
enumeration, then the per-device map joined by `Promise.all`, whose
filtered and sorted result replaces the active set. -/
def refreshRazerDevices {V F : Type}
    (getDefaultFeaturesFor : MainType → List (FeatureDescriptor V))
    (createFeatureFrom : F → FeatureDescriptor V)
    (razerConfigDevices : List (ConfigDevice V F))
    (initOk : DeviceInstance V → Bool) (now : Nat)
    (getAllDevices : Except Unit (List HwDevice))
    (s : ManagerState V) : RefreshResult V :=
  if now < s.lastRefresh + 2000 then
    { state := s, hwQueried := false, hwClosed := false, outcome := .ok (), logs := [] }
  else
    let s₁ : ManagerState V := { s with lastRefresh := now }
    let closed := closeDevices s₁
    match getAllDevices with
    | .error e =>
      { state := closed.1, hwQueried := true, hwClosed := closed.2,
        outcome := .error e, logs := [] }
    | .ok foundDevices =>
      let results := foundDevices.map
        (processFoundDevice getDefaultFeaturesFor createFeatureFrom
          razerConfigDevices initOk)
      finishRefresh closed ((results.map Prod.snd).flatten)
        (promiseAll (results.map Prod.fst))

/-! Supporting lemmas about the JS string primitives. -/

theorem dropWhile_eq_self_of_forall {α : Type} (p : α → Bool) (s : List α)
    (h : ∀ c ∈ s, p c = false) : s.dropWhile p = s := by
  cases s with
  | nil => rfl
  | cons a l => simp [List.dropWhile_cons, h a (by simp)]

theorem jsTrim_eq_self {s : List Nat} (h : ∀ c ∈ s, isJsWs c = false) :
    jsTrim s = s := by
  unfold jsTrim
  rw [dropWhile_eq_self_of_forall _ _ h,
    dropWhile_eq_self_of_forall _ _ (fun c hc => h c (List.mem_reverse.mp hc)),
    List.reverse_reverse]

theorem digitVal_bounds {r c : Nat} (h : (digitVal r c).isSome) :
    48 ≤ c ∧ c ≤ 122 := by
  unfold digitVal at h
  split_ifs at h with h1 h2 h3 <;> first | omega | simp at h

theorem digitVal_not_ws {r c : Nat} (h : (digitVal r c).isSome) :
    isJsWs c = false := by
  have hb := digitVal_bounds h
  unfold isJsWs
  simp only [decide_eq_false_iff_not]
  omega

theorem digitVal_ten_range {c : Nat} (h : (digitVal 10 c).isSome) :
    48 ≤ c ∧ c ≤ 57 := by
  unfold digitVal at h
  split_ifs at h with h1 h2 h3 <;> first | omega | simp at h

theorem digitVal_lowerCode (c : Nat) :
    digitVal 16 (lowerCode c) = digitVal 16 c := by
  by_cases h : 65 ≤ c ∧ c ≤ 90
  · have hl : lowerCode c = c + 32 := by unfold lowerCode; rw [if_pos h]
    rw [hl]
    unfold digitVal
    by_cases h16 : c - 55 < 16
    · rw [if_neg (by omega), if_pos (by omega), if_neg (by omega),
        if_neg (by omega), if_pos (by omega)]
      simp only [Option.some.injEq]
      omega
    · rw [if_neg (by omega), if_neg (by omega), if_neg (by omega),
        if_neg (by omega), if_neg (by omega), if_neg (by omega)]
  · have hl : lowerCode c = c := by unfold lowerCode; rw [if_neg h]
    rw [hl]

theorem lowerCode_of_lt_65 {c : Nat} (h : c < 65) : lowerCode c = c := by
  unfold lowerCode
  rw [if_neg (by omega)]

theorem parseDigits_of_digits (radix : Nat) :
    ∀ (cs : List Nat) (acc : Nat), (∀ c ∈ cs, (digitVal radix c).isSome) →
      parseDigits radix cs acc true =
        some (cs.foldl (fun a c => a * radix + (digitVal radix c).getD 0) acc)
  | [], acc, _ => by simp [parseDigits]
  | c :: rest, acc, h => by
    obtain ⟨d, hd⟩ := Option.isSome_iff_exists.mp (h c (by simp))
    simp only [parseDigits, hd, List.foldl_cons]
    rw [parseDigits_of_digits radix rest (acc * radix + d)
      (fun x hx => h x (by simp [hx]))]
    simp

/-- Shared spine for the two digit-string branches: a nonempty all-digit
string given to `parseIntJs` denotes its positional value. -/
theorem parseIntJs_all_digits (radix : Nat) (hr : radix = 10 ∨ radix = 16)
    (c : Nat) (rest : List Nat)
    (hdig : ∀ x ∈ c :: rest, (digitVal radix x).isSome)
    (h0x : radix = 16 → strip0x (c :: rest) = c :: rest) :
    parseIntJs radix (c :: rest) = some ((natValOfDigits radix (c :: rest) : Nat) : Int) := by
  have hc := hdig c (by simp)
  have hb := digitVal_bounds hc
  obtain ⟨d, hd⟩ := Option.isSome_iff_exists.mp hc
  have hnows : ∀ x ∈ c :: rest, isJsWs x = false :=
    fun x hx => digitVal_not_ws (hdig x hx)
  unfold parseIntJs
  rw [dropWhile_eq_self_of_forall _ _ hnows]
  simp only
  rw [if_neg (by omega), if_neg (by omega)]
  have hstrip : (if radix = 16 then strip0x (c :: rest) else c :: rest) = c :: rest := by
    rcases hr with hr | hr <;> simp [hr, h0x]
  unfold parseUnsigned
  rw [hstrip]
  simp only [parseDigits, hd]
  rw [parseDigits_of_digits radix rest (0 * radix + d)
    (fun x hx => hdig x (by simp [hx]))]
  simp [natValOfDigits, hd]

theorem parseDigits_start (radix : Nat) (cs : List Nat) (hne : cs ≠ [])
    (hdig : ∀ c ∈ cs, (digitVal radix c).isSome) :
    parseDigits radix cs 0 false = some (natValOfDigits radix cs) := by
  cases cs with
  | nil => exact absurd rfl hne
  | cons c rest =>
    obtain ⟨d, hd⟩ := Option.isSome_iff_exists.mp (hdig c (by simp))
    simp only [parseDigits, hd]
    rw [parseDigits_of_digits radix rest (0 * radix + d)
      (fun x hx => hdig x (by simp [hx]))]
    simp [natValOfDigits, hd]

theorem jsToLower_digits_ten {ds : List Nat}
    (hdig : ∀ c ∈ ds, (digitVal 10 c).isSome) : jsToLower ds = ds := by
  unfold jsToLower
  calc ds.map lowerCode = ds.map id := List.map_congr_left (fun c hc => by
        have := digitVal_ten_range (hdig c hc)
        exact lowerCode_of_lt_65 (by omega))
    _ = ds := List.map_id ds

/-- Hex-representation branch: a trimmed-lowered `0x`-prefixed all-hex-digit
string normalizes to its positional value. -/
theorem toIntProductId_hex (v : Nat) (hs : List Nat) (hne : hs ≠ [])
    (hdig : ∀ c ∈ hs, (digitVal 16 c).isSome) (hval : natValOfDigits 16 hs = v) :
    toIntProductId (Pid.str (48 :: 120 :: hs)) = some (v : Int) := by
  have hws : ∀ c ∈ (48 :: 120 :: hs : List Nat), isJsWs c = false := by
    intro c hc
    rcases List.mem_cons.mp hc with h | hc
    · subst h; decide
    rcases List.mem_cons.mp hc with h | hc
    · subst h; decide
    · exact digitVal_not_ws (hdig c hc)
  have hlow : jsToLower (48 :: 120 :: hs) = 48 :: 120 :: jsToLower hs := by
    simp [jsToLower, lowerCode]
  have hdig' : ∀ c ∈ jsToLower hs, (digitVal 16 c).isSome := by
    intro c hc
    obtain ⟨x, hx, rfl⟩ := List.mem_map.mp hc
    rw [digitVal_lowerCode]
    exact hdig x hx
  have hws' : ∀ c ∈ (48 :: 120 :: jsToLower hs : List Nat), isJsWs c = false := by
    intro c hc
    rcases List.mem_cons.mp hc with h | hc
    · subst h; decide
    rcases List.mem_cons.mp hc with h | hc
    · subst h; decide
    · exact digitVal_not_ws (hdig' c hc)
  unfold toIntProductId
  simp only
  rw [jsTrim_eq_self hws, hlow,
    if_pos (show startsWith0x (48 :: 120 :: jsToLower hs) = true from rfl)]
  unfold parseIntJs
  rw [dropWhile_eq_self_of_forall _ _ hws']
  simp only
  rw [if_neg (by omega), if_neg (by omega)]
  unfold parseUnsigned
  rw [if_pos rfl]
  have hstrip : strip0x (48 :: 120 :: jsToLower hs) = jsToLower hs := by
    simp [strip0x]
  rw [hstrip, parseDigits_start 16 (jsToLower hs)
    (by cases hs with
      | nil => exact absurd rfl hne
      | cons c rest => simp [jsToLower]) hdig']
  have hfold : natValOfDigits 16 (jsToLower hs) = natValOfDigits 16 hs := by
    unfold natValOfDigits jsToLower
    rw [List.foldl_map]
    simp only [digitVal_lowerCode]
  simp [hfold, hval]

/-- Decimal-representation branch: a trimmed all-decimal-digit string
normalizes to its positional value. -/
theorem toIntProductId_dec (v : Nat) (ds : List Nat) (hne : ds ≠ [])
    (hdig : ∀ c ∈ ds, (digitVal 10 c).isSome) (hval : natValOfDigits 10 ds = v) :
    toIntProductId (Pid.str ds) = some (v : Int) := by
  have hws : ∀ c ∈ ds, isJsWs c = false := fun c hc => digitVal_not_ws (hdig c hc)
  have hlow := jsToLower_digits_ten hdig
  have hno0x : ¬ startsWith0x ds = true := by
    cases ds with
    | nil => simp [startsWith0x]
    | cons c0 rest =>
      cases rest with
      | nil => simp [startsWith0x]
      | cons c1 rest' =>
        have h1 := digitVal_ten_range (hdig c1 (by simp))
        simp only [startsWith0x, Bool.and_eq_true, beq_iff_eq]
        omega
  unfold toIntProductId
  simp only
  rw [jsTrim_eq_self hws, hlow, if_neg hno0x]
  cases ds with
  | nil => exact absurd rfl hne
  | cons c rest =>
    rw [parseIntJs_all_digits 10 (Or.inl rfl) c rest hdig
      (fun h => absurd h (by decide))]
    rw [hval]

/-- C3: for every value `v`, productId normalization maps each of its valid
representations — the integer `v`, the hex string `0x` followed by `v`'s hex
digits (in either letter case, with leading zeros allowed), and `v`'s
decimal-string form — to the same integer `v`; e.g. `199`, `"0x00C7"` and
`"199"` all normalize to `199`. -/
theorem toIntProductId_normalizes_representations (v : Nat) :
    toIntProductId (Pid.num (JsNum.int (v : Int))) = some (v : Int)
    ∧ (∀ hs : List Nat, hs ≠ [] → (∀ c ∈ hs, (digitVal 16 c).isSome) →
        natValOfDigits 16 hs = v →
        toIntProductId (Pid.str (48 :: 120 :: hs)) = some (v : Int))
    ∧ (∀ ds : List Nat, ds ≠ [] → (∀ c ∈ ds, (digitVal 10 c).isSome) →
        natValOfDigits 10 ds = v →
        toIntProductId (Pid.str ds) = some (v : Int)) :=
  ⟨rfl, fun hs h1 h2 h3 => toIntProductId_hex v hs h1 h2 h3,
    fun ds h1 h2 h3 => toIntProductId_dec v ds h1 h2 h3⟩

/-- Witness for C3 at `v = 199`: the code-unit lists are `"0x00C7"` and
`"199"`. -/
theorem toIntProductId_normalizes_representations_witness :
    toIntProductId (Pid.str [48, 120, 48, 48, 67, 55]) = some ((199 : Nat) : Int)
    ∧ toIntProductId (Pid.str [49, 57, 57]) = some ((199 : Nat) : Int)
    ∧ toIntProductId (Pid.num (JsNum.int ((199 : Nat) : Int))) = some ((199 : Nat) : Int) :=
  ⟨(toIntProductId_normalizes_representations 199).2.1 [48, 48, 67, 55]
      (by decide) (by decide) (by decide),
    (toIntProductId_normalizes_representations 199).2.2 [49, 57, 57]
      (by decide) (by decide) (by decide),
    (toIntProductId_normalizes_representations 199).1⟩

/-! Lemmas about the JS-object and feature-assembly model. -/

theorem lookupJs_map_set {V : Type} (obj : List (String × V)) (k : String) (v : V) :
    lookupJs (obj.map (fun p => if p.1 = k then (p.1, v) else p)) k =
      if (lookupJs obj k).isSome then some v else none := by
  induction obj with
  | nil => simp [lookupJs]
  | cons p rest ih =>
    obtain ⟨k₀, v₀⟩ := p
    rw [List.map_cons,
      show (if (k₀, v₀).1 = k then ((k₀, v₀).1, v) else (k₀, v₀)) =
        if k₀ = k then (k₀, v) else (k₀, v₀) from rfl]
    by_cases hk : k₀ = k
    · rw [if_pos hk]
      simp [lookupJs, hk]
    · rw [if_neg hk]
      simp [lookupJs, hk, ih]

theorem lookupJs_map_set_other {V : Type} (obj : List (String × V))
    (k k' : String) (v : V) (hne : k' ≠ k) :
    lookupJs (obj.map (fun p => if p.1 = k then (p.1, v) else p)) k' =
      lookupJs obj k' := by
  induction obj with
  | nil => rfl
  | cons p rest ih =>
    obtain ⟨k₀, v₀⟩ := p
    rw [List.map_cons,
      show (if (k₀, v₀).1 = k then ((k₀, v₀).1, v) else (k₀, v₀)) =
        if k₀ = k then (k₀, v) else (k₀, v₀) from rfl]
    by_cases hk : k₀ = k
    · rw [if_pos hk]
      have hne' : ¬ k₀ = k' := fun h => hne (h ▸ hk)
      simp [lookupJs, hne', ih]
    · rw [if_neg hk]
      simp [lookupJs, ih]

theorem lookupJs_append {V : Type} (l₁ l₂ : List (String × V)) (k : String) :
    lookupJs (l₁ ++ l₂) k =
      match lookupJs l₁ k with
      | some v => some v
      | none => lookupJs l₂ k := by
  induction l₁ with
  | nil => simp [lookupJs]
  | cons p rest ih => by_cases hk : p.1 = k <;> simp [lookupJs, hk, ih]

theorem lookupJs_setKey_self {V : Type} (obj : List (String × V)) (k : String) (v : V) :
    lookupJs (setKey obj k v) k = some v := by
  unfold setKey
  by_cases h : (lookupJs obj k).isSome
  · rw [if_pos h, lookupJs_map_set, if_pos h]
  · rw [if_neg h, lookupJs_append]
    rw [Option.not_isSome_iff_eq_none] at h
    simp [h, lookupJs]

theorem lookupJs_setKey_other {V : Type} (obj : List (String × V))
    (k k' : String) (v : V) (hne : k' ≠ k) :
    lookupJs (setKey obj k v) k' = lookupJs obj k' := by
  unfold setKey
  by_cases h : (lookupJs obj k).isSome
  · rw [if_pos h, lookupJs_map_set_other _ _ _ _ hne]
  · rw [if_neg h, lookupJs_append]
    cases hl : lookupJs obj k' with
    | some v₀ => rfl
    | none =>
      simp only [hl, lookupJs]
      rw [if_neg (fun hh : k = k' => hne hh.symm)]

theorem lookupJs_eq_none_of_not_mem {V : Type} {o : List (String × V)} {k : String}
    (h : k ∉ o.map Prod.fst) : lookupJs o k = none := by
  induction o with
  | nil => rfl
  | cons p rest ih =>
    simp only [List.map_cons, List.mem_cons] at h
    push_neg at h
    simp [lookupJs, Ne.symm h.1, ih h.2]

theorem lookupJs_objectAssign {V : Type} (t o : List (String × V)) (k : String)
    (hnd : (o.map Prod.fst).Nodup) :
    lookupJs (objectAssign t o) k =
      match lookupJs o k with
      | some v => some v
      | none => lookupJs t k := by
  induction o generalizing t with
  | nil => simp [objectAssign, lookupJs]
  | cons p rest ih =>
    simp only [List.map_cons, List.nodup_cons] at hnd
    have step : objectAssign t (p :: rest) = objectAssign (setKey t p.1 p.2) rest := rfl
    rw [step, ih _ hnd.2]
    by_cases hk : p.1 = k
    · subst hk
      have hrest : lookupJs rest p.1 = none := lookupJs_eq_none_of_not_mem hnd.1
      simp [lookupJs, hrest, lookupJs_setKey_self]
    · cases hl : lookupJs rest k with
      | some v₀ => simp [lookupJs, hk, hl]
      | none => simp [lookupJs, hk, hl, lookupJs_setKey_other _ _ _ _ (fun h => hk h.symm)]

theorem assignFirst_map_fid {V : Type} (fid : String) (ov : List (String × V))
    (fs : List (FeatureDescriptor V)) :
    (assignFirst fid ov fs).map (fun f => f.featureIdentifier) =
      fs.map (fun f => f.featureIdentifier) := by
  induction fs with
  | nil => rfl
  | cons f rest ih =>
    by_cases h : f.featureIdentifier = fid <;> simp [assignFirst, h, ih]

theorem assignFirst_of_none {V : Type} (fid : String) (ov : List (String × V))
    (fs : List (FeatureDescriptor V))
    (h : ∀ f ∈ fs, f.featureIdentifier ≠ fid) :
    assignFirst fid ov fs = fs := by
  induction fs with
  | nil => rfl
  | cons f rest ih =>
    rw [show assignFirst fid ov (f :: rest) =
      if f.featureIdentifier = fid then
        { f with configuration := objectAssign f.configuration ov } :: rest
      else f :: assignFirst fid ov rest from rfl]
    rw [if_neg (h f (by simp)), ih (fun x hx => h x (by simp [hx]))]

theorem applyFeatureOverrides_map_fid {V : Type}
    (es : List (FeatureOverrideEntry V)) (fs : List (FeatureDescriptor V)) :
    (applyFeatureOverrides fs es).map (fun f => f.featureIdentifier) =
      fs.map (fun f => f.featureIdentifier) := by
  induction es generalizing fs with
  | nil => rfl
  | cons e rest ih =>
    cases e with
    | nil => exact ih fs
    | cons kv tail =>
      rw [show applyFeatureOverrides fs ((kv :: tail) :: rest) =
        applyFeatureOverrides (assignFirst kv.1 kv.2 fs) rest from rfl,
        ih, assignFirst_map_fid]

theorem buildFeatures_map_fid {V F : Type}
    (gd : MainType → List (FeatureDescriptor V)) (cf : F → FeatureDescriptor V)
    (p : RazerProperties V F) :
    (buildFeatures gd cf p).map (fun f => f.featureIdentifier) =
      (match p.features with
        | none => (gd p.mainType).map (fun (f : FeatureDescriptor V) => f.featureIdentifier)
        | some fs => fs.map (fun c => (cf c).featureIdentifier)).filter
        (fun i => !((p.featuresMissing.getD []).any (fun m => m == i))) := by
  rcases p with ⟨pn, ppid, piid, pmt, pimg, pfeats, pfm, pfc⟩
  have hbase :
      (match pfeats with
        | none => gd pmt
        | some fs => fs.map cf).map (fun (f : FeatureDescriptor V) => f.featureIdentifier) =
      (match pfeats with
        | none => (gd pmt).map (fun (f : FeatureDescriptor V) => f.featureIdentifier)
        | some fs => fs.map (fun c => (cf c).featureIdentifier)) := by
    cases pfeats <;> simp [List.map_map, Function.comp]
  unfold buildFeatures
  simp only
  cases pfc with
  | none =>
    cases pfm with
    | none => simp [hbase]
    | some missing =>
      simp only [Option.getD]
      rw [← hbase, List.filter_map]
      rfl
  | some cfgs =>
    rw [applyFeatureOverrides_map_fid]
    cases pfm with
    | none => simp [hbase]
    | some missing =>
      simp only [Option.getD]
      rw [← hbase, List.filter_map]
      rfl

theorem applyFeatureOverrides_insert_nomatch {V : Type}
    (fs : List (FeatureDescriptor V)) (fid : String) (ov : List (String × V))
    (tl : FeatureOverrideEntry V) (es₁ es₂ : List (FeatureOverrideEntry V))
    (h : ∀ f ∈ fs, f.featureIdentifier ≠ fid) :
    applyFeatureOverrides fs (es₁ ++ ((fid, ov) :: tl) :: es₂) =
      applyFeatureOverrides fs (es₁ ++ es₂) := by
  have hids : ∀ f ∈ applyFeatureOverrides fs es₁, f.featureIdentifier ≠ fid := by
    intro f hf
    have hmem : f.featureIdentifier ∈
        (applyFeatureOverrides fs es₁).map (fun g => g.featureIdentifier) :=
      List.mem_map_of_mem _ hf
    rw [applyFeatureOverrides_map_fid] at hmem
    obtain ⟨g, hg, hgeq⟩ := List.mem_map.mp hmem
    exact hgeq ▸ h g hg
  unfold applyFeatureOverrides
  rw [List.foldl_append, List.foldl_append, List.foldl_cons]
  congr 1
  exact assignFirst_of_none fid ov _ hids

theorem buildFeatures_missing_override_ignored {V F : Type}
    (gd : MainType → List (FeatureDescriptor V)) (cf : F → FeatureDescriptor V)
    (p : RazerProperties V F) (e : FeatureOverrideEntry V) (fid : String)
    (ov : List (String × V)) (es₁ es₂ : List (FeatureOverrideEntry V))
    (he : e.head? = some (fid, ov)) (hm : fid ∈ p.featuresMissing.getD []) :
    buildFeatures gd cf { p with featuresConfig := some (es₁ ++ e :: es₂) } =
      buildFeatures gd cf { p with featuresConfig := some (es₁ ++ es₂) } := by
  rcases p with ⟨pn, ppid, piid, pmt, pimg, pfeats, pfm, pfc⟩
  cases pfm with
  | none => simp at hm
  | some missing =>
    simp only [Option.getD] at hm
    cases e with
    | nil => simp at he
    | cons hd tl =>
      simp only [List.head?_cons, Option.some.injEq] at he
      subst he
      exact applyFeatureOverrides_insert_nomatch _ fid ov tl es₁ es₂ (by
        intro g hg
        have hcond := List.of_mem_filter hg
        intro hEq
        rw [Bool.not_eq_true', List.any_eq_false] at hcond
        exact absurd (by simp [hEq]) (hcond fid hm))

/-- C2: for every profile and mainType, the feature-identifier list of a
constructed device instance equals the profile's features list if non-null,
otherwise the built-in defaults for the mainType, with every identifier
listed in `featuresMissing` removed (order of survivors preserved); and an
identifier listed in `featuresMissing` makes any `featuresConfig` entry for
it ineffective (removal precedes override). -/
theorem createRazerDeviceFrom_feature_identifiers {V F : Type}
    (gd : MainType → List (FeatureDescriptor V)) (cf : F → FeatureDescriptor V)
    (p : RazerProperties V F) :
    ((createRazerDeviceFrom gd cf p).features.map (fun f => f.featureIdentifier) =
      (match p.features with
        | none => (gd p.mainType).map (fun (f : FeatureDescriptor V) => f.featureIdentifier)
        | some fs => fs.map (fun c => (cf c).featureIdentifier)).filter
        (fun i => !((p.featuresMissing.getD []).any (fun m => m == i))))
    ∧ (∀ (e : FeatureOverrideEntry V) (fid : String) (ov : List (String × V))
        (es₁ es₂ : List (FeatureOverrideEntry V)),
        e.head? = some (fid, ov) → fid ∈ p.featuresMissing.getD [] →
        (createRazerDeviceFrom gd cf
            { p with featuresConfig := some (es₁ ++ e :: es₂) }).features =
          (createRazerDeviceFrom gd cf
            { p with featuresConfig := some (es₁ ++ es₂) }).features) :=
  ⟨buildFeatures_map_fid gd cf p,
    fun e fid ov es₁ es₂ he hm =>
      buildFeatures_missing_override_ignored gd cf p e fid ov es₁ es₂ he hm⟩

/-- Witness for C2: a profile with explicit features `a`, `b`, missing list
`[b]` and an override entry for `b`; the assembled identifier list is `[a]`
and the override entry for the removed `b` has no effect. -/
theorem createRazerDeviceFrom_feature_identifiers_witness :
    ((createRazerDeviceFrom (fun _ => []) (fun s => ⟨s, []⟩)
        { name := ""
          productId := 1
          internalId := 1
          mainType := MainType.keyboard
          image := ""
          features := some ["a", "b"]
          featuresMissing := some ["b"]
          featuresConfig := none : RazerProperties Int String }).features.map
        (fun f => f.featureIdentifier) =
      (["a", "b"].map (fun c => ((⟨c, []⟩ : FeatureDescriptor Int)).featureIdentifier)).filter
        (fun i => !((["b"]).any (fun m => m == i))))
    ∧ (createRazerDeviceFrom (fun _ => []) (fun s => (⟨s, []⟩ : FeatureDescriptor Int))
        { name := ""
          productId := 1
          internalId := 1
          mainType := MainType.keyboard
          image := ""
          features := some ["a", "b"]
          featuresMissing := some ["b"]
          featuresConfig := some ([] ++ [(("b"), [(("x"), (7 : Int))])] :: []) }).features =
      (createRazerDeviceFrom (fun _ => []) (fun s => (⟨s, []⟩ : FeatureDescriptor Int))
        { name := ""
          productId := 1
          internalId := 1
          mainType := MainType.keyboard
          image := ""
          features := some ["a", "b"]
          featuresMissing := some ["b"]
          featuresConfig := some ([] ++ []) }).features :=
  ⟨(createRazerDeviceFrom_feature_identifiers (fun _ => []) (fun s => ⟨s, []⟩)
      { name := ""
        productId := 1
        internalId := 1
        mainType := MainType.keyboard
        image := ""
        features := some ["a", "b"]
        featuresMissing := some ["b"]
        featuresConfig := none }).1,
    (createRazerDeviceFrom_feature_identifiers (fun _ => []) (fun s => ⟨s, []⟩)
      { name := ""
        productId := 1
        internalId := 1
        mainType := MainType.keyboard
        image := ""
        features := some ["a", "b"]
        featuresMissing := some ["b"]
        featuresConfig := none }).2
      [(("b"), [(("x"), (7 : Int))])] ("b") [(("x"), (7 : Int))] [] []
      (by decide) (by decide)⟩

/-- C6: the override merge replaces exactly the keys present in the override
object and leaves all other configuration keys unchanged; an override entry
whose identifier matches no descriptor in the filtered list has no effect
and raises no error. -/
theorem featuresConfig_override_merge {V : Type} :
    (∀ (t o : List (String × V)) (k : String), (o.map Prod.fst).Nodup →
      lookupJs (objectAssign t o) k =
        match lookupJs o k with
        | some v => some v
        | none => lookupJs t k)
    ∧ (∀ (fs : List (FeatureDescriptor V)) (e : FeatureOverrideEntry V)
        (fid : String) (ov : List (String × V)),
        e.head? = some (fid, ov) →
        (∀ f ∈ fs, f.featureIdentifier ≠ fid) →
        applyFeatureOverrides fs [e] = fs) :=
  ⟨fun t o k hnd => lookupJs_objectAssign t o k hnd,
    fun fs e fid ov he h => by
      cases e with
      | nil => simp at he
      | cons hd tl =>
        simp only [List.head?_cons, Option.some.injEq] at he
        subst he
        exact applyFeatureOverrides_insert_nomatch fs fid ov tl [] [] h⟩

/-- Witness for C6: configuration `(a ↦ 1, b ↦ 2)` merged with override
`(b ↦ 3)` keeps `a ↦ 1` and replaces `b ↦ 3`; an entry for identifier `z`
over a descriptor list whose only identifier is `x` changes nothing. -/
theorem featuresConfig_override_merge_witness :
    (lookupJs (objectAssign [(("a"), (1 : Int)), (("b"), 2)] [(("b"), 3)]) ("a") =
      match lookupJs [(("b"), (3 : Int))] ("a") with
      | some v => some v
      | none => lookupJs [(("a"), (1 : Int)), (("b"), 2)] ("a"))
    ∧ (lookupJs (objectAssign [(("a"), (1 : Int)), (("b"), 2)] [(("b"), 3)]) ("b") =
      match lookupJs [(("b"), (3 : Int))] ("b") with
      | some v => some v
      | none => lookupJs [(("a"), (1 : Int)), (("b"), 2)] ("b"))
    ∧ applyFeatureOverrides [(⟨"x", []⟩ : FeatureDescriptor Int)]
        [[(("z"), [(("k"), (9 : Int))])]] = [⟨"x", []⟩] :=
  ⟨(featuresConfig_override_merge).1 [(("a"), (1 : Int)), (("b"), 2)] [(("b"), 3)]
      ("a") (by decide),
    (featuresConfig_override_merge).1 [(("a"), (1 : Int)), (("b"), 2)] [(("b"), 3)]
      ("b") (by decide),
    (featuresConfig_override_merge).2 [⟨"x", []⟩] [(("z"), [(("k"), (9 : Int))])]
      ("z") [(("k"), (9 : Int))] (by decide) (by decide)⟩

/-! Lemmas about the sort comparator. -/

theorem devLe_iff {V : Type} (a b : DeviceInstance V) :
    devLe a b = true ↔
      rankOf a < rankOf b ∨ (rankOf a = rankOf b ∧ a.name ≤ b.name) := by
  unfold devLe sortCompare
  rw [decide_eq_true_iff]
  by_cases hr : rankOf a = rankOf b
  · rw [if_pos hr]
    by_cases h1 : a.name < b.name
    · rw [if_pos h1]
      simp [hr, le_of_lt h1]
    · rw [if_neg h1]
      by_cases h2 : b.name < a.name
      · rw [if_pos h2]
        simp [hr, not_le_of_gt h2]
      · rw [if_neg h2]
        simp [hr, le_of_not_lt h2]
  · rw [if_neg hr]
    constructor
    · intro h
      exact Or.inl (by omega)
    · rintro (h | ⟨h, _⟩)
      · omega
      · exact absurd h hr

theorem devLe_total {V : Type} : ∀ a b : DeviceInstance V, devLe a b || devLe b a := by
  intro a b
  rw [Bool.or_eq_true, devLe_iff, devLe_iff]
  rcases lt_trichotomy (rankOf a) (rankOf b) with h | h | h
  · exact Or.inl (Or.inl h)
  · rcases le_total a.name b.name with hn | hn
    · exact Or.inl (Or.inr ⟨h, hn⟩)
    · exact Or.inr (Or.inr ⟨h.symm, hn⟩)
  · exact Or.inr (Or.inl h)

theorem devLe_trans {V : Type} : ∀ a b c : DeviceInstance V,
    devLe a b → devLe b c → devLe a c := by
  intro a b c hab hbc
  rw [devLe_iff] at hab hbc ⊢
  rcases hab with h1 | ⟨h1, h1n⟩ <;> rcases hbc with h2 | ⟨h2, h2n⟩
  · exact Or.inl (by omega)
  · exact Or.inl (by omega)
  · exact Or.inl (by omega)
  · exact Or.inr ⟨by omega, le_trans h1n h2n⟩

theorem rank_unlisted_lt_listed : ∀ x y : MainType, x ∉ deviceOrder →
    y ∈ deviceOrder → indexOfJs deviceOrder x < indexOfJs deviceOrder y := by
  intro x y
  cases x <;> cases y <;> decide

/-- C4 counterexample: the claim places instances of categories outside the
priority list after all listed categories, but with an unrecognized-category
instance named `Z` and a keyboard named `A` the sort keeps the unrecognized
instance first (its `indexOf` rank is `-1`, below every listed rank). -/
theorem sortDevices_unlisted_category_first :
    sortDevices [(⟨"Z", 0, 0, MainType.unknown, "", []⟩ : DeviceInstance Unit),
        ⟨"A", 1, 1, MainType.keyboard, "", []⟩] =
      [(⟨"Z", 0, 0, MainType.unknown, "", []⟩ : DeviceInstance Unit),
        ⟨"A", 1, 1, MainType.keyboard, "", []⟩]
    ∧ MainType.unknown ∉ deviceOrder ∧ MainType.keyboard ∈ deviceOrder := by
  refine ⟨?_, by decide, by decide⟩
  apply List.mergeSort_of_sorted
  exact List.pairwise_cons.mpr ⟨fun d hd => by
    rw [List.mem_singleton.mp hd]
    decide, List.pairwise_singleton _ _⟩

/-- C4 (amended): `sortDevices` stably orders instances primarily by
category rank in the fixed priority list, with any instance whose category
is outside the list ranked `-1` and so placed before all instances of
listed categories; for equal rank the secondary key is case-sensitive
lexicographic name ascending; instances identical in both keys keep their
relative input order. -/
theorem sortDevices_orders_by_category_then_name {V : Type}
    (ds : List (DeviceInstance V)) :
    List.Perm (sortDevices ds) ds
    ∧ (sortDevices ds).Pairwise
        (fun a b => rankOf a < rankOf b ∨ (rankOf a = rankOf b ∧ a.name ≤ b.name))
    ∧ (∀ a b : DeviceInstance V, a.mainType ∉ deviceOrder →
        b.mainType ∈ deviceOrder → rankOf a < rankOf b)
    ∧ (∀ a b : DeviceInstance V, List.Sublist [a, b] ds → rankOf a = rankOf b →
        a.name = b.name → List.Sublist [a, b] (sortDevices ds)) := by
  refine ⟨List.mergeSort_perm ds devLe, ?_, ?_, ?_⟩
  · exact (List.sorted_mergeSort (fun a b c => devLe_trans a b c)
      (fun a b => devLe_total a b) ds).imp (fun {a b} h => (devLe_iff a b).mp h)
  · intro a b ha hb
    exact rank_unlisted_lt_listed a.mainType b.mainType ha hb
  · intro a b hsub hr hn
    exact List.pair_sublist_mergeSort (fun a b c => devLe_trans a b c)
      (fun a b => devLe_total a b)
      ((devLe_iff a b).mpr (Or.inr ⟨hr, le_of_eq hn⟩)) hsub

/-- Witness for C4 (amended), at a two-element tie and at an
unlisted/listed pair of categories. -/
theorem sortDevices_orders_by_category_then_name_witness :
    List.Sublist [(⟨"A", 1, 1, MainType.keyboard, "", []⟩ : DeviceInstance Unit),
        ⟨"A", 2, 2, MainType.keyboard, "", []⟩]
      (sortDevices [(⟨"A", 1, 1, MainType.keyboard, "", []⟩ : DeviceInstance Unit),
        ⟨"A", 2, 2, MainType.keyboard, "", []⟩])
    ∧ rankOf (⟨"Z", 0, 0, MainType.unknown, "", []⟩ : DeviceInstance Unit) <
        rankOf (⟨"A", 1, 1, MainType.keyboard, "", []⟩ : DeviceInstance Unit) :=
  ⟨(sortDevices_orders_by_category_then_name _).2.2.2 _ _
      (List.Sublist.refl _) (by decide) rfl,
    (sortDevices_orders_by_category_then_name
        ([] : List (DeviceInstance Unit))).2.2.1 _ _ (by decide) (by decide)⟩

/-! Lemmas about the refresh engine. -/

theorem refresh_throttled_eq {V F : Type}
    (gd : MainType → List (FeatureDescriptor V)) (cf : F → FeatureDescriptor V)
    (cfgs : List (ConfigDevice V F)) (initOk : DeviceInstance V → Bool)
    (now : Nat) (hw : Except Unit (List HwDevice)) (s : ManagerState V)
    (h : now < s.lastRefresh + 2000) :
    refreshRazerDevices gd cf cfgs initOk now hw s =
      { state := s, hwQueried := false, hwClosed := false,
        outcome := .ok (), logs := [] } := by
  unfold refreshRazerDevices
  rw [if_pos h]

theorem promiseAll_cons_ok {E α : Type} (a : α) (rs : List (Except E α)) :
    promiseAll (Except.ok a :: rs) =
      match promiseAll rs with
      | Except.error e => Except.error e
      | Except.ok as => Except.ok (a :: as) := by
  cases hr : promiseAll rs with
  | error e => simp [promiseAll, hr]
  | ok as => simp [promiseAll, hr]

theorem promiseAll_append {E α : Type} (xs ys : List (Except E α)) :
    promiseAll (xs ++ ys) =
      match promiseAll xs, promiseAll ys with
      | .error e, _ => .error e
      | .ok _, .error e => .error e
      | .ok as, .ok bs => .ok (as ++ bs) := by
  induction xs with
  | nil =>
    simp only [List.nil_append]
    cases promiseAll ys with
    | error e => rfl
    | ok bs => rfl
  | cons x xs ih =>
    cases x with
    | error e => rfl
    | ok a =>
      rw [List.cons_append, promiseAll_cons_ok, ih, promiseAll_cons_ok]
      cases promiseAll xs <;> cases promiseAll ys <;> rfl

theorem promiseAll_ok_none_middle_map {α : Type}
    (xs ys : List (Except Unit (Option α))) :
    (promiseAll (xs ++ .ok none :: ys)).map (fun l => l.filterMap id) =
      (promiseAll (xs ++ ys)).map (fun l => l.filterMap id) := by
  rw [promiseAll_append, promiseAll_append, promiseAll_cons_ok]
  cases promiseAll xs with
  | error e => rfl
  | ok as =>
    cases promiseAll ys with
    | error e => rfl
    | ok bs => simp [Except.map, List.filterMap_append, List.filterMap_cons]

theorem promiseAll_ok_none_middle_err {α : Type}
    (xs ys : List (Except Unit (Option α))) :
    (promiseAll (xs ++ .ok none :: ys) = .error ()) ↔
      (promiseAll (xs ++ ys) = .error ()) := by
  rw [promiseAll_append, promiseAll_append, promiseAll_cons_ok]
  cases promiseAll xs with
  | error e => cases e; rfl
  | ok as =>
    cases promiseAll ys with
    | error e => cases e; rfl
    | ok bs => simp

theorem finishRefresh_logs {V : Type} (closed : ManagerState V × Bool)
    (logs : List LogEntry) (res : Except Unit (List (Option (DeviceInstance V)))) :
    (finishRefresh closed logs res).logs = logs := by
  cases res <;> rfl

theorem finishRefresh_congr {V : Type} (closed : ManagerState V × Bool)
    (logs₁ logs₂ : List LogEntry)
    {r₁ r₂ : Except Unit (List (Option (DeviceInstance V)))}
    (herr : r₁ = .error () ↔ r₂ = .error ())
    (hmap : r₁.map (fun l => l.filterMap id) = r₂.map (fun l => l.filterMap id)) :
    (finishRefresh closed logs₁ r₁).state = (finishRefresh closed logs₂ r₂).state
    ∧ (finishRefresh closed logs₁ r₁).outcome =
        (finishRefresh closed logs₂ r₂).outcome := by
  cases r₁ with
  | error e =>
    cases e
    rw [herr.mp rfl]
    exact ⟨rfl, rfl⟩
  | ok l₁ =>
    cases r₂ with
    | error e =>
      cases e
      exact absurd (herr.mpr rfl) (by simp)
    | ok l₂ =>
      have h2 : List.filterMap id l₁ = List.filterMap id l₂ := by
        simpa [Except.map] using hmap
      simp [finishRefresh, h2]

theorem refresh_skip_middle {V F : Type}
    (gd : MainType → List (FeatureDescriptor V)) (cf : F → FeatureDescriptor V)
    (cfgs : List (ConfigDevice V F)) (initOk : DeviceInstance V → Bool)
    (now : Nat) (s : ManagerState V) (l₁ l₂ : List HwDevice) (fd : HwDevice)
    (hfd : (processFoundDevice gd cf cfgs initOk fd).1 = .ok none) :
    (refreshRazerDevices gd cf cfgs initOk now (.ok (l₁ ++ fd :: l₂)) s).state =
      (refreshRazerDevices gd cf cfgs initOk now (.ok (l₁ ++ l₂)) s).state
    ∧ (refreshRazerDevices gd cf cfgs initOk now (.ok (l₁ ++ fd :: l₂)) s).outcome =
        (refreshRazerDevices gd cf cfgs initOk now (.ok (l₁ ++ l₂)) s).outcome := by
  by_cases ht : now < s.lastRefresh + 2000
  · rw [refresh_throttled_eq gd cf cfgs initOk now _ s ht,
      refresh_throttled_eq gd cf cfgs initOk now _ s ht]
    exact ⟨rfl, rfl⟩
  · unfold refreshRazerDevices
    rw [if_neg ht, if_neg ht]
    simp only [List.map_append, List.map_cons]
    have hfst :
        ((processFoundDevice gd cf cfgs initOk fd).1 : Except Unit (Option (DeviceInstance V))) =
          .ok none := hfd
    rw [hfst]
    exact finishRefresh_congr _ _ _
      (promiseAll_ok_none_middle_err _ _)
      (promiseAll_ok_none_middle_map _ _)

/-- C5: a refresh call strictly less than 2000 ms after the start of the
previous non-throttled refresh is a no-op: it performs no hardware
enumeration, does not tear down or replace the active device set, leaves
the last-refresh timestamp (and all state) unchanged, and resolves
immediately. -/
theorem refreshRazerDevices_throttled_noop {V F : Type}
    (gd : MainType → List (FeatureDescriptor V)) (cf : F → FeatureDescriptor V)
    (cfgs : List (ConfigDevice V F)) (initOk : DeviceInstance V → Bool)
    (now : Nat) (hw : Except Unit (List HwDevice)) (s : ManagerState V)
    (h : now < s.lastRefresh + 2000) :
    refreshRazerDevices gd cf cfgs initOk now hw s =
      { state := s, hwQueried := false, hwClosed := false,
        outcome := .ok (), logs := [] } :=
  refresh_throttled_eq gd cf cfgs initOk now hw s h

/-- Witness for C5: a call at `t = 1500` after a refresh started at
`t = 1000` is dropped whole. -/
theorem refreshRazerDevices_throttled_noop_witness :
    refreshRazerDevices (fun _ => []) (fun _ => (⟨"f", []⟩ : FeatureDescriptor Unit))
        ([] : List (ConfigDevice Unit Unit)) (fun _ => true) 1500
        (.ok [⟨1, .num (.int 199)⟩]) ⟨1000, none⟩ =
      { state := ⟨1000, none⟩, hwQueried := false, hwClosed := false,
        outcome := .ok (), logs := [] } :=
  refreshRazerDevices_throttled_noop (fun _ => []) (fun _ => ⟨"f", []⟩)
    [] (fun _ => true) 1500 (.ok [⟨1, .num (.int 199)⟩]) ⟨1000, none⟩ (by decide)

/-- C9: `closeDevices` releases the hardware resources exactly once when an
active set exists and clears the set to the explicit no-active-devices
state (`null`); a second call, or a call when the active set is already in
that state, performs no hardware call and changes no state. -/
theorem closeDevices_idempotent {V : Type} (s : ManagerState V) :
    (∀ l, s.activeRazerDevices = some l →
      closeDevices s = ({ s with activeRazerDevices := none }, true))
    ∧ (s.activeRazerDevices = none → closeDevices s = (s, false))
    ∧ closeDevices (closeDevices s).1 = ((closeDevices s).1, false) := by
  refine ⟨?_, ?_, ?_⟩
  · intro l hl
    simp [closeDevices, hl]
  · intro hl
    simp [closeDevices, hl]
  · cases hs : s.activeRazerDevices with
    | none => simp [closeDevices, hs]
    | some l => simp [closeDevices, hs]

/-- Witness for C9: closing from an existing active set calls the hardware
layer once and clears; closing again does not. -/
theorem closeDevices_idempotent_witness :
    closeDevices (⟨5, some []⟩ : ManagerState Unit) = (⟨5, none⟩, true)
    ∧ closeDevices (⟨5, none⟩ : ManagerState Unit) = (⟨5, none⟩, false) :=
  ⟨(closeDevices_idempotent ⟨5, some []⟩).1 [] rfl,
    (closeDevices_idempotent ⟨5, none⟩).2.1 rfl⟩

/-- C7 counterexample: in the constructor state — before any refresh has
run, `activeRazerDevices` is `null` — `getByInternalId` evaluates
`null.find(...)` and throws a `TypeError` instead of returning an explicit
not-found result, refuting the claim that it never throws in every engine
state. -/
theorem getByInternalId_throws_before_first_refresh :
    getByInternalId (constructorState Unit) 1 = Except.error JsError.typeError := rfl

/-- C7 (amended): when the active set exists (`activeRazerDevices` is an
array), `getByInternalId` performs a linear lookup over it and returns an
explicit not-found result (`undefined`, here `none`) when no active
instance matches, without throwing; but when the active set is `null` —
before the first refresh, or after `closeDevices` — the call throws a
`TypeError`. -/
theorem getByInternalId_lookup {V : Type} (s : ManagerState V) (internalId : Int) :
    (s.activeRazerDevices = none →
      getByInternalId s internalId = .error .typeError)
    ∧ (∀ devices, s.activeRazerDevices = some devices →
        getByInternalId s internalId =
          .ok (devices.find? (fun d => d.internalId == internalId))
        ∧ ((∀ d ∈ devices, d.internalId ≠ internalId) →
            getByInternalId s internalId = .ok none)) := by
  refine ⟨fun h => by simp [getByInternalId, h], ?_⟩
  intro devices hdev
  have h1 : getByInternalId s internalId =
      .ok (devices.find? (fun d => d.internalId == internalId)) := by
    simp [getByInternalId, hdev]
  refine ⟨h1, fun hnone => ?_⟩
  rw [h1]
  congr 1
  rw [List.find?_eq_none]
  intro d hd
  simp [hnone d hd]

/-- Witness for C7 (amended): lookup over a populated set misses and
returns `none`; lookup in the `null` state throws. -/
theorem getByInternalId_lookup_witness :
    getByInternalId
        (⟨0, some [⟨"N", 3, 7, MainType.mouse, "", []⟩]⟩ : ManagerState Unit) 5 =
      .ok none
    ∧ getByInternalId (⟨0, none⟩ : ManagerState Unit) 5 = .error .typeError :=
  ⟨((getByInternalId_lookup ⟨0, some [⟨"N", 3, 7, MainType.mouse, "", []⟩]⟩ 5).2
      [⟨"N", 3, 7, MainType.mouse, "", []⟩] rfl).2 (by decide),
    (getByInternalId_lookup ⟨0, none⟩ 5).1 rfl⟩

/-- Catalog used at C1's failing input: profiles for productIds 199 and
200. -/
def c1Configs : List (ConfigDevice Unit Unit) :=
  [{ name := "Keyboard A", productId := 199, mainType := .keyboard,
     features := none, featuresMissing := none, featuresConfig := none,
     image := "" },
   { name := "Mouse B", productId := 200, mainType := .mouse,
     features := none, featuresMissing := none, featuresConfig := none,
     image := "" }]

/-- Init oracle at C1's failing input: `init()` of the device with
productId 200 rejects, the other resolves. -/
def c1InitOk : DeviceInstance Unit → Bool := fun d => d.productId == 199

/-- The refresh at C1's failing input: fresh engine state, two discovered
devices matching the two profiles, one failing `init()`. -/
def c1Refresh : RefreshResult Unit :=
  refreshRazerDevices (fun _ => []) (fun _ => ⟨"f", []⟩) c1Configs c1InitOk
    5000 (.ok [⟨1, .num (.int 199)⟩, ⟨2, .num (.int 200)⟩])
    (constructorState Unit)

/-- C1 at the failing input: both discovered devices match profiles and the
first one's `init()` resolves (its per-device promise settles with the
initialized instance), yet because the second one's `init()` rejects,
`Promise.all` rejects: the whole refresh rejects and the active set stays
`null` — the N−1 successfully initialized devices do not appear, contrary
to the claim. -/
theorem refreshRazerDevices_one_failing_init_rejects_refresh :
    c1Refresh.outcome = .error ()
    ∧ c1Refresh.state.activeRazerDevices = none
    ∧ (processFoundDevice (fun _ => []) (fun _ => ⟨"f", []⟩) c1Configs c1InitOk
        ⟨1, .num (.int 199)⟩).1 =
      .ok (some { name := "Keyboard A", productId := 199, internalId := 1,
                  mainType := .keyboard, image := "", features := [] }) :=
  ⟨rfl, rfl, rfl⟩

theorem refresh_logs_nonthrottled {V F : Type}
    (gd : MainType → List (FeatureDescriptor V)) (cf : F → FeatureDescriptor V)
    (cfgs : List (ConfigDevice V F)) (initOk : DeviceInstance V → Bool)
    (now : Nat) (s : ManagerState V) (found : List HwDevice)
    (ht : ¬ now < s.lastRefresh + 2000) :
    (refreshRazerDevices gd cf cfgs initOk now (.ok found) s).logs =
      ((found.map (processFoundDevice gd cf cfgs initOk)).map Prod.snd).flatten := by
  unfold refreshRazerDevices
  rw [if_neg ht]
  exact finishRefresh_logs _ _ _

/-- C8: during a refresh, a discovered device whose productId cannot be
normalized is skipped with a warning diagnostic; one whose normalized
productId matches no catalog profile yields no instance and emits a
diagnostic; neither case throws (the per-device promise resolves with
`null`), the other discovered devices are processed exactly as if the
skipped device were absent (same resulting state and outcome), and the
skipped device's diagnostic appears in the refresh's log output. -/
theorem refreshRazerDevices_skips_unmatched {V F : Type}
    (gd : MainType → List (FeatureDescriptor V)) (cf : F → FeatureDescriptor V)
    (cfgs : List (ConfigDevice V F)) (initOk : DeviceInstance V → Bool) :
    (∀ fd : HwDevice, toIntProductId fd.productId = none →
      processFoundDevice gd cf cfgs initOk fd =
        (.ok none, [.invalidProductId fd.internalDeviceId fd.productId]))
    ∧ (∀ (fd : HwDevice) (pid : Int), toIntProductId fd.productId = some pid →
        cfgs.find? (fun d => d.productId == pid) = none →
        processFoundDevice gd cf cfgs initOk fd = (.ok none, [.noConfigMatch pid]))
    ∧ (∀ (now : Nat) (s : ManagerState V) (l₁ l₂ : List HwDevice) (fd : HwDevice),
        (processFoundDevice gd cf cfgs initOk fd).1 = .ok none →
        (refreshRazerDevices gd cf cfgs initOk now (.ok (l₁ ++ fd :: l₂)) s).state =
          (refreshRazerDevices gd cf cfgs initOk now (.ok (l₁ ++ l₂)) s).state
        ∧ (refreshRazerDevices gd cf cfgs initOk now (.ok (l₁ ++ fd :: l₂)) s).outcome =
            (refreshRazerDevices gd cf cfgs initOk now (.ok (l₁ ++ l₂)) s).outcome)
    ∧ (∀ (now : Nat) (s : ManagerState V) (l₁ l₂ : List HwDevice) (fd : HwDevice)
        (entry : LogEntry), ¬ now < s.lastRefresh + 2000 →
        (processFoundDevice gd cf cfgs initOk fd).2 = [entry] →
        entry ∈ (refreshRazerDevices gd cf cfgs initOk now
          (.ok (l₁ ++ fd :: l₂)) s).logs) := by
  refine ⟨?_, ?_, ?_, ?_⟩
  · intro fd h
    simp [processFoundDevice, h]
  · intro fd pid h1 h2
    simp [processFoundDevice, h1, h2]
  · intro now s l₁ l₂ fd hfd
    exact refresh_skip_middle gd cf cfgs initOk now s l₁ l₂ fd hfd
  · intro now s l₁ l₂ fd entry ht hsnd
    rw [refresh_logs_nonthrottled gd cf cfgs initOk now s _ ht]
    have hmem : processFoundDevice gd cf cfgs initOk fd ∈
        (l₁ ++ fd :: l₂).map (processFoundDevice gd cf cfgs initOk) :=
      List.mem_map_of_mem _ (by simp)
    have hmem₂ : (processFoundDevice gd cf cfgs initOk fd).2 ∈
        ((l₁ ++ fd :: l₂).map (processFoundDevice gd cf cfgs initOk)).map Prod.snd :=
      List.mem_map_of_mem _ hmem
    exact List.mem_flatten.mpr ⟨_, hmem₂, by rw [hsnd]; simp⟩

/-- Witness for C8: a device with `null` productId and, with an empty
catalog, a device with productId `777`. -/
theorem refreshRazerDevices_skips_unmatched_witness :
    processFoundDevice (fun _ => []) (fun _ => (⟨"f", []⟩ : FeatureDescriptor Unit))
        ([] : List (ConfigDevice Unit Unit)) (fun _ => true) ⟨3, .jsNull⟩ =
      (.ok none, [.invalidProductId 3 .jsNull])
    ∧ processFoundDevice (fun _ => []) (fun _ => (⟨"f", []⟩ : FeatureDescriptor Unit))
        ([] : List (ConfigDevice Unit Unit)) (fun _ => true) ⟨4, .num (.int 777)⟩ =
      (.ok none, [.noConfigMatch 777])
    ∧ ((refreshRazerDevices (fun _ => []) (fun _ => (⟨"f", []⟩ : FeatureDescriptor Unit))
          ([] : List (ConfigDevice Unit Unit)) (fun _ => true) 5000
          (.ok ([] ++ ⟨3, .jsNull⟩ :: [])) (constructorState Unit)).state =
        (refreshRazerDevices (fun _ => []) (fun _ => (⟨"f", []⟩ : FeatureDescriptor Unit))
          ([] : List (ConfigDevice Unit Unit)) (fun _ => true) 5000
          (.ok ([] ++ [])) (constructorState Unit)).state)
    ∧ LogEntry.noConfigMatch 777 ∈
        (refreshRazerDevices (fun _ => []) (fun _ => (⟨"f", []⟩ : FeatureDescriptor Unit))
          ([] : List (ConfigDevice Unit Unit)) (fun _ => true) 5000
          (.ok ([] ++ ⟨4, .num (.int 777)⟩ :: [])) (constructorState Unit)).logs :=
  ⟨(refreshRazerDevices_skips_unmatched (fun _ => []) (fun _ => ⟨"f", []⟩) []
      (fun _ => true)).1 ⟨3, .jsNull⟩ rfl,
    (refreshRazerDevices_skips_unmatched (fun _ => []) (fun _ => ⟨"f", []⟩) []
      (fun _ => true)).2.1 ⟨4, .num (.int 777)⟩ 777 rfl rfl,
    ((refreshRazerDevices_skips_unmatched (fun _ => []) (fun _ => ⟨"f", []⟩) []
      (fun _ => true)).2.2.1 5000 (constructorState Unit) [] [] ⟨3, .jsNull⟩ rfl).1,
    (refreshRazerDevices_skips_unmatched (fun _ => []) (fun _ => ⟨"f", []⟩) []
      (fun _ => true)).2.2.2 5000 (constructorState Unit) [] [] ⟨4, .num (.int 777)⟩
      (LogEntry.noConfigMatch 777) (by decide) rfl⟩

/-- C10: in a non-throttled refresh the last-refresh timestamp is updated
and the previous active set torn down and cleared before the hardware layer
is queried; hence when enumeration throws, the refresh rejects with the
engine in the no-active-devices state and `lastRefresh = now` (the hardware
was closed exactly when a previous active set existed), and any refresh
call within the next 2000 ms is still dropped by the throttle. -/
theorem refreshRazerDevices_enumeration_failure {V F : Type}
    (gd : MainType → List (FeatureDescriptor V)) (cf : F → FeatureDescriptor V)
    (cfgs : List (ConfigDevice V F)) (initOk : DeviceInstance V → Bool)
    (now : Nat) (s : ManagerState V) (h : ¬ now < s.lastRefresh + 2000) :
    refreshRazerDevices gd cf cfgs initOk now (.error ()) s =
      { state := { lastRefresh := now, activeRazerDevices := none },
        hwQueried := true, hwClosed := s.activeRazerDevices.isSome,
        outcome := .error (), logs := [] }
    ∧ (∀ (now₂ : Nat) (hw₂ : Except Unit (List HwDevice)), now₂ < now + 2000 →
        refreshRazerDevices gd cf cfgs initOk now₂ hw₂
            { lastRefresh := now, activeRazerDevices := none } =
          { state := { lastRefresh := now, activeRazerDevices := none },
            hwQueried := false, hwClosed := false,
            outcome := .ok (), logs := [] }) := by
  constructor
  · unfold refreshRazerDevices
    rw [if_neg h]
    cases hs : s.activeRazerDevices with
    | none => simp [closeDevices, hs]
    | some l => simp [closeDevices, hs]
  · intro now₂ hw₂ h₂
    exact refresh_throttled_eq gd cf cfgs initOk now₂ hw₂ _ h₂

/-- Witness for C10: enumeration throws at `t = 5000` over a populated
active set; a retry at `t = 6000` is throttled. -/
theorem refreshRazerDevices_enumeration_failure_witness :
    refreshRazerDevices (fun _ => []) (fun _ => (⟨"f", []⟩ : FeatureDescriptor Unit))
        ([] : List (ConfigDevice Unit Unit)) (fun _ => true) 5000 (.error ())
        ⟨0, some [⟨"N", 3, 7, MainType.mouse, "", []⟩]⟩ =
      { state := ⟨5000, none⟩, hwQueried := true, hwClosed := true,
        outcome := .error (), logs := [] }
    ∧ refreshRazerDevices (fun _ => []) (fun _ => (⟨"f", []⟩ : FeatureDescriptor Unit))
        ([] : List (ConfigDevice Unit Unit)) (fun _ => true) 6000 (.ok [])
        ⟨5000, none⟩ =
      { state := ⟨5000, none⟩, hwQueried := false, hwClosed := false,
        outcome := .ok (), logs := [] } :=
  ⟨(refreshRazerDevices_enumeration_failure (fun _ => []) (fun _ => ⟨"f", []⟩) []
      (fun _ => true) 5000 ⟨0, some [⟨"N", 3, 7, MainType.mouse, "", []⟩]⟩
      (by decide)).1,
    (refreshRazerDevices_enumeration_failure (fun _ => []) (fun _ => ⟨"f", []⟩) []
      (fun _ => true) 5000 ⟨0, some [⟨"N", 3, 7, MainType.mouse, "", []⟩]⟩
      (by decide)).2 6000 (.ok []) (by decide)⟩

end RazerMacos
